import Mathlib

/-
A verification development for the delivery-delay mailer
(`app.py` + `mailer_logic.py`).

The Python program is shallowly embedded:

* pandas cell values are modelled by `PyVal`: a missing value (`NaN`),
  Python `None`, or a string.  Numeric cells are embedded by their Python
  string rendering (e.g. the float `1010.0` as the string `"1010.0"`),
  which is all the program ever observes of them: every comparison the
  code performs on codes first goes through `str(...)`.
* a pandas `DataFrame` is a column-name list plus a list of rows
  (each row a list of cells aligned with the columns);
* Python exceptions raised by the pipeline become an `Except` error value
  (`keyError` for a pandas missing-column subscript, `valueErrorMissingColumns`
  for the explicit `raise ValueError` in `filter_and_process`);
* `str.replace` and the regex substitutions of `markdown_to_html` are
  reimplemented as executable functions on `List Char`, following the
  semantics of the Python originals (leftmost, non-overlapping; lazy
  quantifiers take the shortest match; `.` does not match a newline);
* network I/O (`smtplib`) is abstracted as a `channel` function passed to
  the dispatch loop, returning either acceptance or an error description;
* file I/O (the history CSV) is modelled by returning the list of rows
  that would be appended.

Korean identifiers are not valid Lean identifiers, so record fields use
English names; the doc comments give the original column names.
-/

set_option maxRecDepth 4096

/-- A Python scalar as observed by the mailer: `none` is Python `None`,
`nan` is a pandas missing value (float NaN), `str` a string.  Numeric
cells are embedded by their `str(...)` rendering. -/
inductive PyVal where
  | none
  | nan
  | str (s : String)
deriving DecidableEq, Repr

/-- `pd.isna` / `pd.notna`: `None` and NaN are missing. -/
def PyVal.isna : PyVal → Bool
  | .none => true
  | .nan => true
  | .str _ => false

/-- Python truthiness of the embedded value: `None` is falsy, float NaN is
truthy, a string is truthy iff nonempty. -/
def PyVal.truthy : PyVal → Bool
  | .none => false
  | .nan => true
  | .str s => s ≠ ""

/-- Python `str(...)` of the embedded value (`str(float('nan')) = "nan"`). -/
def PyVal.pyStr : PyVal → String
  | .none => "None"
  | .nan => "nan"
  | .str s => s

/-- A pandas DataFrame: column names plus rows of cells aligned with them. -/
structure DataFrame where
  cols : List String
  rows : List (List PyVal)
deriving DecidableEq, Repr

/-- Index of a column label, `Option.none` when the label is absent
(subscripting such a label raises a pandas `KeyError`). -/
def DataFrame.colIdx (df : DataFrame) (c : String) : Option Nat :=
  df.cols.findIdx? (· == c)

/-- Cell of a row at a column index (rows are aligned with `cols`). -/
def cellAt (row : List PyVal) (i : Nat) : PyVal :=
  row.getD i PyVal.nan

/-- One row of the partner roster (`mail_list`); the three columns the code
reads are 협력사명 (partner name), 협력사코드 (partner code) and
영업담당자E-MAIL (contact address). -/
structure RosterRow where
  name : PyVal
  code : PyVal
  email : PyVal
deriving DecidableEq, Repr

/-- One generated mail bundle, mirroring the dict built in
`filter_and_process`: partner name, partner code, resolved address,
rendered plain-text body, row count, and the group's (projected) rows. -/
structure MailItem where
  partner_name : String
  partner_code : PyVal
  email : PyVal
  content : String
  count : Nat
  df : List (List PyVal)
deriving DecidableEq, Repr

/-- Exceptions `filter_and_process` can raise. -/
inductive PipelineError where
  | keyError (col : String)
  | valueErrorMissingColumns (cols : List String)
deriving DecidableEq, Repr

/-- The delay-classification column 배송지연 분류 used by the filter. -/
def delay_col : String := "배송지연 분류"

/-- The `required_columns` list of `filter_and_process` (협력사코드,
협력사명, 상품코드, 상품명, 단품명, 주문번호, 운송장번호).  Note that the
delay-classification column is not part of it. -/
def required_columns : List String :=
  ["협력사코드", "협력사명", "상품코드", "상품명", "단품명", "주문번호", "운송장번호"]

/-- `str.startswith` / prefix test on character lists. -/
def startsWith : List Char → List Char → Bool
  | [], _ => true
  | _ :: _, [] => false
  | p :: ps, c :: cs => p == c && startsWith ps cs

/-- Leftmost, non-overlapping replacement of `pat` by `r`, the semantics of
Python `str.replace`; structural in a fuel argument (one unit per consumed
character, so `s.length` fuel always suffices). -/
def replaceAllF (pat r : List Char) : Nat → List Char → List Char
  | _, [] => []
  | 0, s => s
  | fuel + 1, c :: rest =>
    if startsWith pat (c :: rest) then
      r ++ replaceAllF pat r fuel ((c :: rest).drop pat.length)
    else c :: replaceAllF pat r fuel rest

/-- Python `s.replace(pat, r)` on the embedded strings. -/
def pyReplace (s pat r : String) : String :=
  String.mk (replaceAllF pat.data r.data s.data.length s.data)

/-- Python `str.split(sep)` for a single-character separator. -/
def splitOnChar (sep : Char) : List Char → List (List Char)
  | [] => [[]]
  | c :: rest =>
    let r := splitOnChar sep rest
    if c == sep then [] :: r
    else
      match r with
      | h :: t => (c :: h) :: t
      | [] => [[c]]

/-- `sep.join(...)` for a single-character separator. -/
def joinSep (sep : Char) : List (List Char) → List Char
  | [] => []
  | [l] => l
  | l :: ls => l ++ sep :: joinSep sep ls

/-- Python `str(code).split('.')[0]`: the partner-code normalization that
strips a trailing float-style fractional suffix. -/
def normalize_code (s : String) : String :=
  String.mk ((splitOnChar '.' s.data).headD [])

/-- `SaaSMailer.get_partner_email`: first look the partner name up in the
roster (exact, case-sensitive); if no row matches and the code is truthy,
re-run the lookup comparing normalized `str`-rendered codes; return the
first matching row's address cell, or Python `None`. -/
def get_partner_email (mail_list : List RosterRow) (partner_name : String)
    (partner_code : PyVal) : PyVal :=
  let result := mail_list.filter (fun r => r.name == PyVal.str partner_name)
  let result :=
    if result.isEmpty && partner_code.truthy then
      let p_code_str := normalize_code partner_code.pyStr
      mail_list.filter (fun r => normalize_code r.code.pyStr == p_code_str)
    else result
  match result with
  | r :: _ => r.email
  | [] => PyVal.none

/-- `SaaSMailer.create_table` on a group's projected rows.  Projected row
layout (fixed by `required_columns`): 0 = partner code, 1 = partner name,
2 = item code, 3 = item name, 4 = variant name, 5 = order number,
6 = tracking number. -/
def create_table (group_rows : List (List PyVal)) : String :=
  String.mk (joinSep '\n' (group_rows.map (fun row => String.data <|
    "| " ++ (cellAt row 2).pyStr ++ " | " ++ (cellAt row 3).pyStr ++ " | "
      ++ (cellAt row 4).pyStr ++ " | " ++ (cellAt row 5).pyStr ++ " | "
      ++ (if (cellAt row 6).isna then "-" else (cellAt row 6).pyStr) ++ " |")))

/-- The literal table-row placeholder line replaced by `create_mail_content`
(`| {{상품코드}} | ... |` in the source; braces written as escapes). -/
def row_placeholder : String :=
  "| \x7b\x7b상품코드\x7d\x7d | \x7b\x7b상품명\x7d\x7d | \x7b\x7b단품명\x7d\x7d | \x7b\x7b주문번호\x7d\x7d | \x7b\x7b운송장번호\x7d\x7d |"

/-- The partner-name placeholder `{{협력사명}}`. -/
def name_placeholder : String := "\x7b\x7b협력사명\x7d\x7d"

/-- `SaaSMailer.create_mail_content`. -/
def create_mail_content (template : String) (partner_name : String)
    (group_rows : List (List PyVal)) : String :=
  pyReplace (pyReplace template row_placeholder (create_table group_rows))
    name_placeholder partner_name

/-- String comparison on code points (the order Python and pandas use when
sorting group keys). -/
def charsLe : List Char → List Char → Bool
  | [], _ => true
  | _ :: _, [] => false
  | a :: as, b :: bs => if a = b then charsLe as bs else decide (a.toNat < b.toNat)

/-- `a <= b` for strings, by code points. -/
def strLe (a b : String) : Bool := charsLe a.data b.data

/-- Insert into a sorted list, after any element it compares equal to
(the placement a stable sort gives). -/
def insertSorted (le : α → α → Bool) (x : α) : List α → List α
  | [] => [x]
  | y :: ys => if le x y then x :: y :: ys else y :: insertSorted le x ys

/-- A stable sort (insertion sort), modelling Python's stable `sort` /
pandas' sorted group keys. -/
def stableSort (le : α → α → Bool) : List α → List α
  | [] => []
  | x :: xs => insertSorted le x (stableSort le xs)

/-- Partner name of a projected row, as an optional string (`Option.none`
when the name cell is missing — pandas `groupby` drops such rows). -/
def rowNameKey (r : List PyVal) : Option String :=
  match cellAt r 1 with
  | .str s => some s
  | _ => Option.none

/-- The group keys of `result_df.groupby('협력사명')`: the distinct
non-missing partner names, sorted ascending (pandas sorts group keys and
drops missing keys). -/
def groupKeys (rows : List (List PyVal)) : List String :=
  stableSort strLe ((rows.filterMap rowNameKey).dedup)

/-- The filter predicate of `filter_and_process` step 1: the
delay-classification cell is missing or the empty string. -/
def undecided (di : Nat) (r : List PyVal) : Bool :=
  (cellAt r di).isna || (cellAt r di == PyVal.str "")

/-- Rows of `df` whose delay-classification cell (at column index `di`) is
empty or missing. -/
def undecidedRows (df : DataFrame) (di : Nat) : List (List PyVal) :=
  df.rows.filter (undecided di)

/-- Projection of a row to `required_columns`, in that order. -/
def projectRow (df : DataFrame) (r : List PyVal) : List PyVal :=
  required_columns.map (fun c => cellAt r ((df.colIdx c).getD 0))

/-- `SaaSMailer.filter_and_process`.  Subscripting the missing
delay-classification column raises a pandas `KeyError` (so the filter step
runs before the required-column validation, which covers only the seven
projected columns); a missing projected column raises the explicit
`ValueError`.  Grouping follows pandas `groupby`: keys sorted ascending,
rows with a missing key dropped, each group in original row order. -/
def filter_and_process (df : DataFrame) (mail_list : List RosterRow)
    (template : String) : Except PipelineError (List MailItem × List String) :=
  match df.colIdx delay_col with
  | Option.none => .error (.keyError delay_col)
  | some di =>
    let logs0 := ["🔍 Filtering data..."]
    let filtered := undecidedRows df di
    let missing_cols := required_columns.filter (fun c => (df.colIdx c).isNone)
    if missing_cols.isEmpty then
      let result_rows := filtered.map (projectRow df)
      let logs1 := logs0 ++ ["✓ Filtered " ++ toString result_rows.length
        ++ " rows from " ++ toString df.rows.length ++ " total rows."]
      if result_rows.length == 0 then .ok ([], logs1)
      else
        let keys := groupKeys result_rows
        let logs2 := logs1 ++ ["✓ Grouped into " ++ toString keys.length ++ " partners."]
        let mail_items := keys.map (fun partner_name =>
          let group_df := result_rows.filter (fun r => rowNameKey r == some partner_name)
          let partner_code := cellAt (group_df.headD []) 0
          let mail_content := create_mail_content template partner_name group_df
          let email := get_partner_email mail_list partner_name partner_code
          { partner_name := partner_name, partner_code := partner_code,
            email := email, content := mail_content,
            count := group_df.length, df := group_df : MailItem })
        .ok (mail_items, logs2 ++ ["✓ Generated " ++ toString mail_items.length ++ " mail drafts."])
    else .error (.valueErrorMissingColumns missing_cols)

/-- One appended row of the history ledger (`save_history_log`); field
names are the English renderings of the CSV columns 수집일시, 협력사명,
협력사코드, 주문번호, 상품코드, 상품명, 운송장번호, 발송결과, 비고. -/
structure HistoryEntry where
  collected_at : String
  partner_name : String
  partner_code : PyVal
  order_no : PyVal
  item_code : PyVal
  item_name : PyVal
  tracking_no : PyVal
  send_result : String
  remark : String
deriving DecidableEq, Repr

/-- `save_history_log`: expand every MailItem into one history row per
underlying record.  `send_results` is the dict built by `main` (modelled as
an association list keyed by partner name); an item whose partner name is
absent from it is tagged `Skipped`, one that is present is tagged
`Success`/`Fail` from its boolean. -/
def save_history_log (mail_items : List MailItem)
    (send_results : List (String × Bool × String)) (current_time : String) :
    List HistoryEntry :=
  (mail_items.map (fun item =>
    let statusMsg :=
      match send_results.find? (fun kv => kv.1 == item.partner_name) with
      | some kv => (if kv.2.1 then "Success" else "Fail", kv.2.2)
      | Option.none => ("Skipped", "No Email / Excluded")
    item.df.map (fun row =>
      { collected_at := current_time, partner_name := item.partner_name,
        partner_code := item.partner_code, order_no := cellAt row 5,
        item_code := cellAt row 2, item_name := cellAt row 3,
        tracking_no := cellAt row 6, send_result := statusMsg.1,
        remark := statusMsg.2 : HistoryEntry }))).flatten

/-- Python `str.strip()`: drop whitespace from both ends. -/
def stripChars (s : List Char) : List Char :=
  ((s.dropWhile Char.isWhitespace).reverse.dropWhile Char.isWhitespace).reverse

/-- Last character of a line, if any. -/
def lastChar : List Char → Option Char
  | [] => Option.none
  | [c] => some c
  | _ :: c :: rest => lastChar (c :: rest)

/-- The collection test of the inner loop of the table pass:
`curr.startswith('|') and curr.endswith('|')`. -/
def startsEndsPipe (l : List Char) : Bool :=
  (l.head? == some '|') && (lastChar l == some '|')

/-- `line[1:-1]`. -/
def interiorChars (l : List Char) : List Char :=
  (l.drop 1).dropLast

/-- The candidate-table test of the outer loop:
`line.startswith('|') and line.endswith('|') and '|' in line[1:-1]`. -/
def isTableStart (l : List Char) : Bool :=
  startsEndsPipe l && (interiorChars l).contains '|'

/-- Cells of a pipe line: `[c.strip() for c in line[1:-1].split('|')]`. -/
def parseCells (l : List Char) : List (List Char) :=
  (splitOnChar '|' (interiorChars l)).map stripChars

/-- The inner `while` of the table pass: collect the maximal run of
(stripped) lines that start and end with a pipe; return the collected
stripped lines and the remaining raw lines. -/
def collectPipe : List (List Char) → List (List Char) × List (List Char)
  | [] => ([], [])
  | l :: ls =>
    let curr := stripChars l
    if startsEndsPipe curr then
      (curr :: (collectPipe ls).1, (collectPipe ls).2)
    else ([], l :: ls)

theorem collectPipe_snd_le (ls : List (List Char)) :
    (collectPipe ls).2.length ≤ ls.length := by
  induction ls with
  | nil => simp [collectPipe]
  | cons l ls ih =>
    simp only [collectPipe]
    split
    · simpa using Nat.le_succ_of_le ih
    · simp

/-- One header cell of the generated table HTML. -/
def thCell (h : List Char) : List Char :=
  "<th style=\"border: 1px solid #dee2e6; padding: 12px; text-align: left; font-weight: bold;\">".data
    ++ h ++ "</th>".data

/-- One data cell of the generated table HTML; an empty cell is rendered
as a dash (`val = c if c else '-'`). -/
def tdCell (c : List Char) : List Char :=
  "<td style=\"border: 1px solid #dee2e6; padding: 10px;\">".data
    ++ (if c.isEmpty then "-".data else c) ++ "</td>".data

/-- One data row of the generated table HTML, with the alternating
background colour chosen from the row index. -/
def trRow (idx : Nat) (row : List (List Char)) : List Char :=
  "<tr style=\"background-color: ".data
    ++ (if idx % 2 == 0 then "#ffffff".data else "#f8f9fa".data) ++ ";\">".data
    ++ (row.map tdCell).flatten ++ "</tr>".data

/-- The table HTML built by the table pass from parsed header cells and
parsed data rows (built with no embedded newlines). -/
def tableHtml (headers : List (List Char)) (data_rows : List (List (List Char))) : List Char :=
  "<table style=\"border-collapse: collapse; width: 100%; margin: 20px 0; border: 1px solid #dee2e6;\">".data
    ++ "<thead><tr style=\"background-color: #4a5568; color: white;\">".data
    ++ (headers.map thCell).flatten
    ++ "</tr></thead><tbody>".data
    ++ ((data_rows.enum.map (fun p => trRow p.1 p.2)).flatten)
    ++ "</tbody></table>".data

/-- Parse a collected block of at least three lines and build its HTML:
first line gives the headers, the second (separator) line is discarded,
the remaining lines are data rows, rows whose cells are all empty dropped
(`if any(cells)`). -/
def buildTable (table_lines : List (List Char)) : List Char :=
  match table_lines with
  | header_line :: _ :: rest =>
    let headers := parseCells header_line
    let data_rows := rest.filterMap (fun dl =>
      let cells := parseCells dl
      if cells.any (fun c => !c.isEmpty) then some cells else Option.none)
    tableHtml headers data_rows
  | _ => []

/-- Step 1 of `markdown_to_html` on the list of lines: a stripped line that
starts and ends with a pipe and has an interior pipe begins a block; the
maximal pipe run (which always includes the current line, since the outer
test implies the inner one) is collected; a block of at least three lines
becomes one HTML table line, a shorter block is emitted as its stripped
lines; any other line is emitted unchanged. -/
def tableScan : List (List Char) → List (List Char)
  | [] => []
  | l :: ls =>
    let line := stripChars l
    if isTableStart line then
      let table_lines := line :: (collectPipe ls).1
      let rest := (collectPipe ls).2
      if 3 ≤ table_lines.length then buildTable table_lines :: tableScan rest
      else table_lines ++ tableScan rest
    else l :: tableScan ls
termination_by ls => ls.length
decreasing_by
  all_goals first
    | exact Nat.lt_succ_of_le (collectPipe_snd_le ls)
    | simp

/-- The per-line heading substitutions (`^### (.+)$`, then `^## (.+)$`,
then `^# (.+)$`, multiline). -/
def headerLine (l : List Char) : List Char :=
  if startsWith "### ".data l && !(l.drop 4).isEmpty then
    "<h3 style=\"color: #333; margin-top: 20px; margin-bottom: 10px;\">".data
      ++ l.drop 4 ++ "</h3>".data
  else if startsWith "## ".data l && !(l.drop 3).isEmpty then
    "<h2 style=\"color: #333; margin-top: 25px; margin-bottom: 15px;\">".data
      ++ l.drop 3 ++ "</h2>".data
  else if startsWith "# ".data l && !(l.drop 2).isEmpty then
    "<h1 style=\"color: #333; margin-top: 30px; margin-bottom: 20px;\">".data
      ++ l.drop 2 ++ "</h1>".data
  else l

/-- The heading passes of `markdown_to_html`, applied line by line. -/
def headersPass (s : List Char) : List Char :=
  joinSep '\n' ((splitOnChar '\n' s).map headerLine)

/-- Find the lazy closing match of delimiter `d`: the shortest further
content (newline-free, `.` does not match a newline) after which `d`
occurs; returns that content and the text after the delimiter. -/
def closeFrom (d : List Char) : List Char → Option (List Char × List Char)
  | [] => if startsWith d [] then some ([], []) else Option.none
  | c :: rest =>
    if startsWith d (c :: rest) then some ([], (c :: rest).drop d.length)
    else if c = '\n' then Option.none
    else (closeFrom d rest).map (fun p => (c :: p.1, p.2))

theorem closeFrom_len {d : List Char} : ∀ {s p}, closeFrom d s = some p →
    p.2.length ≤ s.length := by
  intro s
  induction s with
  | nil =>
    intro p h
    simp only [closeFrom] at h
    split at h
    · cases h; simp
    · cases h
  | cons c rest ih =>
    intro p h
    simp only [closeFrom] at h
    split at h
    · cases h
      rw [List.length_drop]
      exact Nat.sub_le _ _
    · split at h
      · cases h
      · cases h3 : closeFrom d rest with
        | none => rw [h3] at h; cases h
        | some q =>
          rw [h3] at h
          simp only [Option.map_some'] at h
          cases h
          simpa using Nat.le_succ_of_le (ih h3)

/-- The regex substitution `re.sub(d + '(.+?)' + d, open + ... + close, s)`
for a literal delimiter `d = d0 :: dr` (the bold and italic passes): scan
left to right; at a position where the delimiter matches and at least one
newline-free content character follows, take the lazily shortest close;
otherwise advance one character. -/
def subEmph (d0 : Char) (dr ot ct : List Char) : List Char → List Char
  | [] => []
  | ch :: rest =>
    if startsWith (d0 :: dr) (ch :: rest) then
      match h : (ch :: rest).drop (d0 :: dr).length with
      | c0 :: t =>
        if c0 = '\n' then ch :: subEmph d0 dr ot ct rest
        else
          match h2 : closeFrom (d0 :: dr) t with
          | some p => ot ++ c0 :: p.1 ++ ct ++ subEmph d0 dr ot ct p.2
          | Option.none => ch :: subEmph d0 dr ot ct rest
      | [] => ch :: subEmph d0 dr ot ct rest
    else ch :: subEmph d0 dr ot ct rest
termination_by s => s.length
decreasing_by
  · simp
  · have hl := congrArg List.length h
    have h3 := closeFrom_len h2
    simp [List.length_drop] at hl
    simp
    omega
  · simp
  · simp
  · simp

/-- The bold pass: `re.sub(r'\*\*(.+?)\*\*', r'<strong>\1</strong>', html)`. -/
def sub_bold (s : List Char) : List Char :=
  subEmph '*' ['*'] "<strong>".data "</strong>".data s

/-- The italic pass: `re.sub(r'\*(.+?)\*', r'<em>\1</em>', html)`,
run after the bold pass. -/
def sub_italic (s : List Char) : List Char :=
  subEmph '*' [] "<em>".data "</em>".data s

/-- The list-item substitution `^- (.+)$` (multiline), per line. -/
def listItemLine (l : List Char) : List Char :=
  if startsWith "- ".data l && !(l.drop 2).isEmpty then
    "<li style=\"margin: 5px 0;\">".data ++ l.drop 2 ++ "</li>".data
  else l

/-- The list pass of `markdown_to_html`, applied line by line. -/
def listItemsPass (s : List Char) : List Char :=
  joinSep '\n' ((splitOnChar '\n' s).map listItemLine)

/-- Split after the first occurrence of `pat`: `some (a, b)` with
`s = a ++ b` and `pat` a suffix of `a`. -/
def splitAfterFirst (pat : List Char) : List Char → Option (List Char × List Char)
  | [] => if pat.isEmpty then some ([], []) else Option.none
  | c :: rest =>
    if startsWith pat (c :: rest) then some (pat, (c :: rest).drop pat.length)
    else
      match splitAfterFirst pat rest with
      | some p => some (c :: p.1, p.2)
      | Option.none => Option.none

/-- One maximal match of `(<li.*?</li>(\n)?)+` (DOTALL) at a position that
starts with `<li`: each iteration lazily reaches the first `</li>`, then
greedily takes one following newline, and the group repeats while the text
continues with `<li`.  Fuel-structural; `s.length` fuel always suffices
(every iteration consumes at least eight characters). -/
def liRunF : Nat → List Char → Option (List Char × List Char)
  | 0, _ => Option.none
  | fuel + 1, s =>
    if startsWith "<li".data s then
      match splitAfterFirst "</li>".data (s.drop 3) with
      | some (seg, rest1) =>
        let seg1 := "<li".data ++ seg
        let segRest :=
          match rest1 with
          | '\n' :: r => (seg1 ++ ['\n'], r)
          | _ => (seg1, rest1)
        match liRunF fuel segRest.2 with
        | some (run, rest3) => some (segRest.1 ++ run, rest3)
        | Option.none => some segRest
      | Option.none => Option.none
    else Option.none

/-- The list-wrapping substitution
`re.sub(r'(<li.*?</li>(\n)?)+', r'<ul ...>\g<0></ul>', html, flags=DOTALL)`:
every maximal run of list items is wrapped in one list container.
Fuel-structural. -/
def liWrapPassF : Nat → List Char → List Char
  | 0, s => s
  | fuel + 1, s =>
    match s with
    | [] => []
    | c :: rest =>
      match liRunF s.length s with
      | some (run, rest2) =>
        "<ul style=\"margin: 10px 0; padding-left: 20px;\">".data ++ run
          ++ "</ul>".data ++ liWrapPassF fuel rest2
      | Option.none => c :: liWrapPassF fuel rest

/-- The list-wrapping pass. -/
def liWrapPass (s : List Char) : List Char := liWrapPassF s.length s

/-- The backtracking search for `\[(.+?)\]\((.+?)\)` after the opening
bracket and first content character: at each position, accept `](` followed
by a lazily closed parenthesised URL, otherwise grow the (newline-free)
link text by one character. -/
def linkFrom : List Char → Option (List Char × List Char × List Char)
  | [] => Option.none
  | c :: rest =>
    let extend : Option (List Char × List Char × List Char) :=
      if c = '\n' then Option.none
      else (linkFrom rest).map (fun p => (c :: p.1, p.2.1, p.2.2))
    if c = ']' then
      match rest with
      | '(' :: u0 :: ur =>
        if u0 = '\n' then extend
        else
          match closeFrom [')'] ur with
          | some (ucont, after) => some ([], u0 :: ucont, after)
          | Option.none => extend
      | _ => extend
    else extend

/-- The link substitution
`re.sub(r'\[(.+?)\]\((.+?)\)', r'<a href="\2" ...>\1</a>', html)`.
Fuel-structural. -/
def linkPassF : Nat → List Char → List Char
  | 0, s => s
  | fuel + 1, s =>
    match s with
    | [] => []
    | c :: rest =>
      if c = '[' then
        match rest with
        | c0 :: r0 =>
          if c0 = '\n' then c :: linkPassF fuel rest
          else
            match linkFrom r0 with
            | some (textRest, url, after) =>
              "<a href=\"".data ++ url
                ++ "\" style=\"color: #007bff; text-decoration: none;\">".data
                ++ (c0 :: textRest) ++ "</a>".data ++ linkPassF fuel after
            | Option.none => c :: linkPassF fuel rest
        | [] => [c]
      else c :: linkPassF fuel rest

/-- The link pass. -/
def linkPass (s : List Char) : List Char := linkPassF s.length s

/-- `SaaSMailer.markdown_to_html`: the ordered pass pipeline — tables,
headings, bold before italic, list items, list wrapping, links, then
double newlines to paragraph breaks and remaining newlines to `<br>`,
all wrapped in the styled root container. -/
def markdown_to_html (markdown_text : String) : String :=
  let html := markdown_text.data
  let html := joinSep '\n' (tableScan (splitOnChar '\n' html))
  let html := headersPass html
  let html := sub_bold html
  let html := sub_italic html
  let html := listItemsPass html
  let html := liWrapPass html
  let html := linkPass html
  let html := replaceAllF "\n\n".data "</p><p style=\"margin: 10px 0;\">".data html.length html
  let html := replaceAllF "\n".data "<br>".data html.length html
  String.mk ("<div style=\"font-family: sans-serif; line-height: 1.6; color: #333;\">".data
    ++ html ++ "</div>".data)

/-- The SMTP configuration dict assembled in `main`. -/
structure SmtpConfig where
  server : String
  port : Nat
  username : String
  password : String
  from_email : String
  from_name : String
deriving DecidableEq, Repr

/-- The multipart message composed by `send_single_mail`: fixed subject
pattern naming the partner, configured sender, resolved address, the
plain-text body and its HTML conversion. -/
structure MailMessage where
  subject : String
  sender : String
  recipient : PyVal
  body_text : String
  body_html : String
deriving DecidableEq, Repr

/-- The message `send_single_mail` composes for a mail item. -/
def mkMessage (item : MailItem) (cfg : SmtpConfig) : MailMessage :=
  { subject := "[배송확인] " ++ item.partner_name ++ " 배송 지연 건 확인 요청 드립니다",
    sender := cfg.from_name ++ " <" ++ cfg.from_email ++ ">",
    recipient := item.email,
    body_text := item.content,
    body_html := markdown_to_html item.content }

/-- The mail-submission channel, abstracting the SMTP session
(`connect`/`starttls`/`login`/`send_message`): acceptance or an error
description (the `str(e)` of the raised exception). -/
def Channel : Type := SmtpConfig → MailMessage → Except String Unit

/-- `SaaSMailer.send_single_mail`: `(False, "No Email Address")` for a
falsy address; otherwise compose the message and submit it over the
channel — acceptance yields `(True, "Sent")`, any raised error is caught
and yields `(False, str(e))`. -/
def send_single_mail (item : MailItem) (cfg : SmtpConfig) (channel : Channel) :
    Bool × String :=
  if !item.email.truthy then (false, "No Email Address")
  else
    match channel cfg (mkMessage item cfg) with
    | .ok _ => (true, "Sent")
    | .error e => (false, e)

/-- `valid_items` of `main`: the items with a truthy resolved address —
the only items for which the mail channel is contacted. -/
def valid_items (mail_items : List MailItem) : List MailItem :=
  mail_items.filter (fun it => it.email.truthy)

/-- The send phase of `main`: record `(False, 'No Email Address')` for
every address-less item, then loop over `valid_items` in order, sending
each and recording its outcome, counting successes and failures.  Returns
the `send_results` association list (keyed by partner name) and the two
counters. -/
def dispatch_send (mail_items : List MailItem) (cfg : SmtpConfig)
    (channel : Channel) : List (String × Bool × String) × Nat × Nat :=
  let no_email_results := (mail_items.filter (fun it => !it.email.truthy)).map
    (fun it => (it.partner_name, false, "No Email Address"))
  (valid_items mail_items).foldl
    (fun acc it =>
      let sm := send_single_mail it cfg channel
      (acc.1 ++ [(it.partner_name, sm.1, sm.2)],
        if sm.1 then acc.2.1 + 1 else acc.2.1,
        if sm.1 then acc.2.2 else acc.2.2 + 1))
    (no_email_results, 0, 0)

/-- One dispatch run of `main` followed by `save_history_log`: the history
rows appended for this batch. -/
def dispatch_and_log (mail_items : List MailItem) (cfg : SmtpConfig)
    (channel : Channel) (current_time : String) : List HistoryEntry :=
  save_history_log mail_items (dispatch_send mail_items cfg channel).1 current_time

/-- The re-sort `mail_items.sort(key=lambda x: 0 if x['email'] else 1)`
performed by `main` after analysis: a stable sort on the two-valued key
that puts items with a truthy address first. -/
def emailSortKey (it : MailItem) : Nat := if it.email.truthy then 0 else 1

/-- The sorted mail-item list `main` stores for preview and dispatch. -/
def sortMailItems (items : List MailItem) : List MailItem :=
  stableSort (fun a b => emailSortKey a ≤ emailSortKey b) items

/-- Strict string comparison on code points (Python's `<` on strings). -/
def charsLt : List Char → List Char → Bool
  | [], [] => false
  | [], _ :: _ => true
  | _ :: _, [] => false
  | a :: as, b :: bs => if a = b then charsLt as bs else decide (a.toNat < b.toNat)

/-- `a < b` for strings, by code points. -/
def strLt (a b : String) : Bool := charsLt a.data b.data

/-- The columns of the projected-column validation that are absent from the
table. -/
def missingRequired (df : DataFrame) : List String :=
  required_columns.filter (fun c => (df.colIdx c).isNone)

/-- The failing input for C1: a MailItem whose address resolution returned
`None` (one underlying record). -/
def C1item : MailItem :=
  { partner_name := "협력사A", partner_code := PyVal.str "100", email := PyVal.none,
    content := "", count := 1,
    df := [[PyVal.str "100", PyVal.str "협력사A", PyVal.str "i1", PyVal.str "n1",
            PyVal.str "v1", PyVal.str "o1", PyVal.nan]] }

/-- An addressed mail item alphabetically before `C10itemB`. -/
def C10itemA : MailItem :=
  { partner_name := "협력사A", partner_code := PyVal.str "1",
    email := PyVal.str "a@x", content := "", count := 1, df := [] }

/-- An address-less mail item alphabetically after `C10itemA`. -/
def C10itemB : MailItem :=
  { partner_name := "협력사B", partner_code := PyVal.str "2",
    email := PyVal.none, content := "", count := 1, df := [] }

/-- The failing input for the C3 counterexample: one undecided record whose
partner-name cell is missing (NaN). -/
def C3df : DataFrame :=
  { cols := ["협력사코드", "협력사명", "상품코드", "상품명", "단품명", "주문번호", "운송장번호", "배송지연 분류"],
    rows := [[PyVal.str "100", PyVal.nan, PyVal.str "i", PyVal.str "n",
              PyVal.str "v", PyVal.str "o", PyVal.str "t", PyVal.nan]] }

/-- The processing log produced on `C3df`. -/
def C3logs : List String :=
  ["🔍 Filtering data...", "✓ Filtered 1 rows from 1 total rows.",
   "✓ Grouped into 0 partners.", "✓ Generated 0 mail drafts."]

/-- The witness input for C3: one undecided record for partner 협력사B. -/
def C3Wdf : DataFrame :=
  { cols := ["협력사코드", "협력사명", "상품코드", "상품명", "단품명", "주문번호", "운송장번호", "배송지연 분류"],
    rows := [[PyVal.str "100", PyVal.str "협력사B", PyVal.str "i", PyVal.str "n",
              PyVal.str "v", PyVal.str "o", PyVal.nan, PyVal.str ""]] }

/-- The MailItems produced on `C3Wdf` with an empty roster and template. -/
def C3Witems : List MailItem :=
  [{ partner_name := "협력사B", partner_code := PyVal.str "100",
     email := PyVal.none, content := "", count := 1,
     df := [[PyVal.str "100", PyVal.str "협력사B", PyVal.str "i", PyVal.str "n",
             PyVal.str "v", PyVal.str "o", PyVal.nan]] }]

/-- The processing log produced on `C3Wdf`. -/
def C3Wlogs : List String :=
  ["🔍 Filtering data...", "✓ Filtered 1 rows from 1 total rows.",
   "✓ Grouped into 1 partners.", "✓ Generated 1 mail drafts."]

/-- A markup pipe line built from cell texts: `| c1 | c2 | ... |` without
the optional padding spaces (`|c1|c2|...|`). -/
def mkPipeLine (cells : List (List Char)) : List Char :=
  '|' :: (joinSep '|' cells ++ ['|'])

/-- A well-behaved table cell text: no pipe, no newline, and already free
of leading/trailing whitespace (so the strip step of the parser returns it
unchanged). -/
def cellOk (c : List Char) : Prop :=
  ('|' ∉ c) ∧ ('\n' ∉ c) ∧ stripChars c = c

instance (c : List Char) : Decidable (cellOk c) :=
  inferInstanceAs (Decidable (('|' ∉ c) ∧ ('\n' ∉ c) ∧ stripChars c = c))

deriving instance DecidableEq for Except

/-- The head of a filtered list is the first element satisfying the
predicate. -/
theorem filter_head?_eq_find? (p : α → Bool) (l : List α) :
    (l.filter p).head? = l.find? p := by
  induction l with
  | nil => rfl
  | cons a t ih =>
    by_cases h : p a <;> simp [List.filter_cons, List.find?_cons, h, ih]

/-- C5: code normalization maps the strings "1010.0" and "1010" to the same
lookup key, so a group whose partner code arrives as "1010.0" (and whose
name has no roster match) resolves the address of a roster entry coded
"1010". -/
theorem C5_code_normalization_collapses :
    normalize_code "1010.0" = normalize_code "1010" ∧
    get_partner_email
      [{ name := PyVal.str "공급사A", code := PyVal.str "1010",
         email := PyVal.str "contact@partner.com" }]
      "미등록 협력사" (PyVal.str "1010.0") = PyVal.str "contact@partner.com" := by
  exact ⟨by decide, by decide⟩

/-- C4: address resolution first looks up by exact case-sensitive
partner-name match and returns the first matching roster row's address;
only when no name match exists and the code is non-empty (Python-truthy)
does it fall back to normalized-code comparison, returning the first
match's address or absent (`None`) if none — in particular a name match
always wins over a code match. -/
theorem C4_name_match_wins (mail_list : List RosterRow) (partner_name : String)
    (partner_code : PyVal) :
    (∀ r, mail_list.find? (fun rr => rr.name == PyVal.str partner_name) = some r →
      get_partner_email mail_list partner_name partner_code = r.email) ∧
    (mail_list.find? (fun rr => rr.name == PyVal.str partner_name) = Option.none →
      partner_code.truthy = true →
      get_partner_email mail_list partner_name partner_code =
        (match mail_list.find? (fun rr =>
            normalize_code rr.code.pyStr == normalize_code partner_code.pyStr) with
         | some r => r.email
         | Option.none => PyVal.none)) ∧
    (mail_list.find? (fun rr => rr.name == PyVal.str partner_name) = Option.none →
      partner_code.truthy = false →
      get_partner_email mail_list partner_name partner_code = PyVal.none) := by
  refine ⟨?_, ?_, ?_⟩
  · intro r hfind
    have h0 : (mail_list.filter (fun rr => rr.name == PyVal.str partner_name)).head?
        = some r := by rw [filter_head?_eq_find?]; exact hfind
    unfold get_partner_email
    cases hf : mail_list.filter (fun rr => rr.name == PyVal.str partner_name) with
    | nil => rw [hf] at h0; cases h0
    | cons a t =>
      rw [hf] at h0
      simp only [List.head?_cons, Option.some.injEq] at h0
      simp [hf, h0]
  · intro hfind htruthy
    have h0 : (mail_list.filter (fun rr => rr.name == PyVal.str partner_name)).head?
        = Option.none := by rw [filter_head?_eq_find?]; exact hfind
    have hf : mail_list.filter (fun rr => rr.name == PyVal.str partner_name) = [] := by
      cases hf : mail_list.filter (fun rr => rr.name == PyVal.str partner_name) with
      | nil => rfl
      | cons a t => rw [hf] at h0; cases h0
    unfold get_partner_email
    rw [hf]
    simp only [List.isEmpty_nil, htruthy, Bool.and_self, if_true]
    rw [← filter_head?_eq_find?]
    cases hf2 : mail_list.filter (fun rr =>
        normalize_code rr.code.pyStr == normalize_code partner_code.pyStr) with
    | nil => simp
    | cons a t => simp
  · intro hfind htruthy
    have h0 : (mail_list.filter (fun rr => rr.name == PyVal.str partner_name)).head?
        = Option.none := by rw [filter_head?_eq_find?]; exact hfind
    have hf : mail_list.filter (fun rr => rr.name == PyVal.str partner_name) = [] := by
      cases hf : mail_list.filter (fun rr => rr.name == PyVal.str partner_name) with
      | nil => rfl
      | cons a t => rw [hf] at h0; cases h0
    unfold get_partner_email
    rw [hf]
    simp [htruthy]

/-- Witness for C4 at concrete inputs: a roster containing both a name match
(with one address) and a code match (with another) resolves the name match's
address; with no name match a truthy code falls back to the code match; with
no name match and an empty code the result is absent. -/
theorem C4_name_match_wins_witness :
    get_partner_email
      [{ name := PyVal.str "협력사B", code := PyVal.str "10", email := PyVal.str "code@x" },
       { name := PyVal.str "협력사A", code := PyVal.str "99", email := PyVal.str "name@x" }]
      "협력사A" (PyVal.str "10") = PyVal.str "name@x" ∧
    get_partner_email
      [{ name := PyVal.str "협력사B", code := PyVal.str "7", email := PyVal.str "b@x" }]
      "협력사A" (PyVal.str "7.0") = PyVal.str "b@x" ∧
    get_partner_email
      [{ name := PyVal.str "협력사B", code := PyVal.str "7", email := PyVal.str "b@x" }]
      "협력사A" (PyVal.str "") = PyVal.none := by
  refine ⟨?_, ?_, ?_⟩
  · exact (C4_name_match_wins _ "협력사A" (PyVal.str "10")).1
      { name := PyVal.str "협력사A", code := PyVal.str "99", email := PyVal.str "name@x" }
      (by decide)
  · exact (C4_name_match_wins _ "협력사A" (PyVal.str "7.0")).2.1 (by decide) (by decide)
  · exact (C4_name_match_wins _ "협력사A" (PyVal.str "")).2.2 (by decide) (by decide)

/-- C2 (amended): if a projected required column is missing the pipeline
fails with the `ValueError` reporting the missing names (before any
grouping); but a missing delay-classification column instead raises the
pandas `KeyError` from the filter subscript itself — the filter runs before
the required-column validation, and that validation does not cover the
delay-classification column. -/
theorem C2_missing_columns_fail (df : DataFrame) (ml : List RosterRow) (t : String) :
    (df.colIdx delay_col = Option.none →
      filter_and_process df ml t = .error (.keyError delay_col)) ∧
    (∀ di, df.colIdx delay_col = some di →
      (missingRequired df).isEmpty = false →
      filter_and_process df ml t = .error (.valueErrorMissingColumns (missingRequired df))) := by
  constructor
  · intro h
    unfold filter_and_process
    rw [h]
  · intro di h hm
    unfold filter_and_process
    rw [h]
    simp only [missingRequired] at hm
    simp [hm, missingRequired]

/-- Witness for C2 (amended): a table missing only the variant-name column
단품명 is rejected with the `ValueError` naming it, and a table with the
seven projected columns but no delay-classification column fails with the
`KeyError` instead. -/
theorem C2_missing_columns_fail_witness :
    filter_and_process
      { cols := ["배송지연 분류", "협력사코드", "협력사명", "상품코드", "상품명", "주문번호", "운송장번호"],
        rows := [] } [] "" = .error (.valueErrorMissingColumns ["단품명"]) ∧
    filter_and_process { cols := required_columns, rows := [] } [] ""
      = .error (.keyError delay_col) := by
  constructor
  · have h := (C2_missing_columns_fail
      { cols := ["배송지연 분류", "협력사코드", "협력사명", "상품코드", "상품명", "주문번호", "운송장번호"],
        rows := [] } [] "").2 0 (by decide) (by decide)
    rw [h]
    decide
  · exact (C2_missing_columns_fail { cols := required_columns, rows := [] } [] "").1 (by decide)

/-- C2 counterexample: on a table that has all seven projected columns but
lacks the delay-classification column, the run does not fail with an error
reporting the missing column names (as the claim states); it fails with the
pandas `KeyError` raised by the filter step. -/
theorem C2_counterexample :
    filter_and_process { cols := required_columns, rows := [] } [] ""
      = .error (.keyError delay_col) ∧
    ¬ ∃ cols, filter_and_process { cols := required_columns, rows := [] } [] ""
      = .error (.valueErrorMissingColumns cols) := by
  constructor
  · decide
  · rintro ⟨cols, h⟩
    rw [show filter_and_process { cols := required_columns, rows := [] } [] ""
      = .error (.keyError delay_col) from by decide] at h
    simp at h

/-- C1 (code bug): for a MailItem with no resolved address the dispatch run
does contact the mail channel zero times (`valid_items` is empty), but —
because `main` inserts the item into `send_results` with `success = False`
before calling `save_history_log` — every HistoryEntry expanded from it is
tagged `Fail` with remark "No Email Address", not `Skipped` as the claim
(and the code's own comments, which call this case "Skipped 처리") state:
the `Skipped` branch of `save_history_log` is unreachable from `main`. -/
theorem C1_no_address_tagged_fail_not_skipped (cfg : SmtpConfig) (channel : Channel)
    (time : String) :
    valid_items [C1item] = [] ∧
    (dispatch_and_log [C1item] cfg channel time).map
      (fun e => (e.send_result, e.remark)) = [("Fail", "No Email Address")] ∧
    ∀ e ∈ dispatch_and_log [C1item] cfg channel time, e.send_result ≠ "Skipped" := by
  refine ⟨rfl, rfl, ?_⟩
  intro e he
  have h2 : (dispatch_and_log [C1item] cfg channel time).map HistoryEntry.send_result
      = ["Fail"] := rfl
  have h3 : e.send_result ∈ (dispatch_and_log [C1item] cfg channel time).map
      HistoryEntry.send_result := List.mem_map_of_mem _ he
  rw [h2] at h3
  simp only [List.mem_singleton] at h3
  rw [h3]
  decide

/-- Sum of list lengths: a partition by a boolean predicate preserves
length. -/
theorem length_filter_not_add (p : α → Bool) (l : List α) :
    (l.filter (fun a => !p a)).length + (l.filter p).length = l.length := by
  induction l with
  | nil => rfl
  | cons a t ih =>
    by_cases h : p a <;> simp [List.filter_cons, h, ← ih] <;> omega

/-- The send loop of `main`, characterised: starting from any accumulator,
it appends one outcome per valid item, in order, and each item ticks
exactly one of the two counters. -/
theorem dispatch_fold_spec (cfg : SmtpConfig) (channel : Channel) :
    ∀ (items : List MailItem) (acc : List (String × Bool × String)) (s f : Nat),
      (items.foldl (fun acc it =>
          let sm := send_single_mail it cfg channel
          (acc.1 ++ [(it.partner_name, sm.1, sm.2)],
            if sm.1 then acc.2.1 + 1 else acc.2.1,
            if sm.1 then acc.2.2 else acc.2.2 + 1)) (acc, s, f)).1
        = acc ++ items.map (fun it => (it.partner_name, send_single_mail it cfg channel)) ∧
      (items.foldl (fun acc it =>
          let sm := send_single_mail it cfg channel
          (acc.1 ++ [(it.partner_name, sm.1, sm.2)],
            if sm.1 then acc.2.1 + 1 else acc.2.1,
            if sm.1 then acc.2.2 else acc.2.2 + 1)) (acc, s, f)).2.1
        + (items.foldl (fun acc it =>
          let sm := send_single_mail it cfg channel
          (acc.1 ++ [(it.partner_name, sm.1, sm.2)],
            if sm.1 then acc.2.1 + 1 else acc.2.1,
            if sm.1 then acc.2.2 else acc.2.2 + 1)) (acc, s, f)).2.2
        = s + f + items.length := by
  intro items
  induction items with
  | nil => intro acc s f; simp
  | cons it t ih =>
    intro acc s f
    rcases hsm : send_single_mail it cfg channel with ⟨b, msg⟩
    simp only [List.foldl_cons, List.map_cons, hsm]
    cases b
    · simp only [Bool.false_eq_true, if_false]
      have := ih (acc ++ [(it.partner_name, false, msg)]) s (f + 1)
      refine ⟨?_, ?_⟩
      · rw [this.1]; simp
      · rw [this.2]; simp only [List.length_cons]; omega
    · simp only [if_true]
      have := ih (acc ++ [(it.partner_name, true, msg)]) (s + 1) f
      refine ⟨?_, ?_⟩
      · rw [this.1]; simp
      · rw [this.2]; simp only [List.length_cons]; omega

/-- C6: a send attempt whose channel submission raises any error is captured
locally as a `Fail` outcome carrying the error's description; the loop
records exactly one outcome per item, in order, never aborting the batch on
a failure, and every item ticks exactly one of the success/failure
counters. -/
theorem C6_send_errors_recovered_locally (mail_items : List MailItem)
    (cfg : SmtpConfig) (channel : Channel) :
    (∀ item : MailItem, item.email.truthy = true →
      ∀ e, channel cfg (mkMessage item cfg) = .error e →
        send_single_mail item cfg channel = (false, e)) ∧
    (dispatch_send mail_items cfg channel).1 =
      (mail_items.filter (fun it => !it.email.truthy)).map
        (fun it => (it.partner_name, false, "No Email Address"))
      ++ (valid_items mail_items).map
        (fun it => (it.partner_name, send_single_mail it cfg channel)) ∧
    (dispatch_send mail_items cfg channel).1.length = mail_items.length ∧
    (dispatch_send mail_items cfg channel).2.1
      + (dispatch_send mail_items cfg channel).2.2
      = (valid_items mail_items).length := by
  have hspec := dispatch_fold_spec cfg channel (valid_items mail_items)
    ((mail_items.filter (fun it => !it.email.truthy)).map
      (fun it => (it.partner_name, false, "No Email Address"))) 0 0
  refine ⟨?_, ?_, ?_, ?_⟩
  · intro item htruthy e herr
    unfold send_single_mail
    rw [htruthy, herr]
    rfl
  · simp only [dispatch_send]
    exact hspec.1
  · simp only [dispatch_send]
    rw [hspec.1]
    simp only [List.length_append, List.length_map]
    exact length_filter_not_add _ mail_items
  · simp only [dispatch_send]
    rw [hspec.2]
    simp

/-- Witness for C6: with a channel that rejects every message with "boom",
an addressed item's outcome is `(False, "boom")`, and a two-item batch (one
addressed, one not) still records two outcomes with the counters summing to
the number of addressed items. -/
theorem C6_send_errors_recovered_locally_witness :
    send_single_mail
      { partner_name := "협력사A", partner_code := PyVal.str "1",
        email := PyVal.str "a@x", content := "", count := 1, df := [] }
      { server := "smtp.gmail.com", port := 587, username := "u", password := "p",
        from_email := "u", from_name := "발송팀" }
      (fun _ _ => .error "boom") = (false, "boom") ∧
    (dispatch_send
      [{ partner_name := "협력사A", partner_code := PyVal.str "1",
         email := PyVal.str "a@x", content := "", count := 1, df := [] },
       { partner_name := "협력사B", partner_code := PyVal.str "2",
         email := PyVal.none, content := "", count := 1, df := [] }]
      { server := "smtp.gmail.com", port := 587, username := "u", password := "p",
        from_email := "u", from_name := "발송팀" }
      (fun _ _ => .error "boom")).1.length = 2 := by
  constructor
  · exact (C6_send_errors_recovered_locally [] _ _).1 _ (by decide) "boom" rfl
  · exact (C6_send_errors_recovered_locally _ _ _).2.2.1

theorem charsLt_asymm : ∀ {a b : List Char}, charsLt a b = true →
    charsLt b a = true → False := by
  intro a
  induction a with
  | nil =>
    intro b h1 h2
    cases b with
    | nil => simp [charsLt] at h1
    | cons c cs => simp [charsLt] at h2
  | cons x xs ih =>
    intro b h1 h2
    cases b with
    | nil => simp [charsLt] at h1
    | cons y ys =>
      by_cases hxy : x = y
      · subst hxy
        simp only [charsLt, if_pos rfl] at h1 h2
        exact ih h1 h2
      · have hyx : ¬ y = x := fun h => hxy h.symm
        simp only [charsLt, if_neg hxy, decide_eq_true_eq] at h1
        simp only [charsLt, if_neg hyx, decide_eq_true_eq] at h2
        omega

theorem insertSorted_all_le (le : α → α → Bool) (x : α) (l : List α)
    (h : ∀ y ∈ l, le x y = true) : insertSorted le x l = x :: l := by
  cases l with
  | nil => rfl
  | cons y ys => simp [insertSorted, h y (List.mem_cons_self y ys)]

theorem insertSorted_append_skip (le : α → α → Bool) (x : α) (A B : List α)
    (h : ∀ a ∈ A, le x a = false) :
    insertSorted le x (A ++ B) = A ++ insertSorted le x B := by
  induction A with
  | nil => rfl
  | cons a as ih =>
    simp only [List.cons_append, insertSorted]
    rw [h a (List.mem_cons_self a as)]
    simp only [Bool.false_eq_true, if_false, List.cons.injEq, true_and]
    exact ih (fun a' ha' => h a' (List.mem_cons_of_mem a ha'))

/-- The stable re-sort of `main` is the partition: addressed items first,
address-less items after, each part in its original relative order. -/
theorem sortMailItems_partition (items : List MailItem) :
    sortMailItems items = items.filter (fun it => it.email.truthy)
      ++ items.filter (fun it => !it.email.truthy) := by
  unfold sortMailItems
  induction items with
  | nil => rfl
  | cons x t ih =>
    simp only [stableSort, List.filter_cons]
    rw [ih]
    by_cases hx : x.email.truthy
    · rw [insertSorted_all_le]
      · simp [hx]
      · intro y hy
        simp [emailSortKey, hx]
    · have hxf : x.email.truthy = false := by
        cases hv : x.email.truthy
        · rfl
        · exact absurd hv hx
      rw [insertSorted_append_skip _ _ _ _ ?skipA]
      case skipA =>
        intro a ha
        have hat : a.email.truthy = true := (List.mem_filter.mp ha).2
        simp [emailSortKey, hxf, hat]
      rw [insertSorted_all_le _ _ _ ?leB]
      case leB =>
        intro b hb
        have hbt : b.email.truthy = false := by
          have := (List.mem_filter.mp hb).2
          simpa using this
        simp [emailSortKey, hxf, hbt]
      simp [hxf]

/-- C10 (amended): after analysis `main` stably re-sorts the MailItems so
that every item with a resolved (truthy) address precedes every item
without one, each part keeping its original relative order; consequently
the preview/dispatch order fails to be partner-name ascending whenever an
address-less item is alphabetically before some addressed item (not, as
stated, whenever any item merely lacks an address). -/
theorem C10_sort_address_first (items : List MailItem) :
    sortMailItems items =
      items.filter (fun it => it.email.truthy)
        ++ items.filter (fun it => !it.email.truthy) ∧
    (∀ x ∈ items, ∀ y ∈ items, x.email.truthy = false → y.email.truthy = true →
      strLt x.partner_name y.partner_name = true →
      ¬ (sortMailItems items).Pairwise
          (fun a b => strLt a.partner_name b.partner_name = true)) := by
  refine ⟨sortMailItems_partition items, ?_⟩
  intro x hx y hy hxe hye hlt hpair
  rw [sortMailItems_partition items, List.pairwise_append] at hpair
  have hyx := hpair.2.2 y (List.mem_filter.mpr ⟨hy, hye⟩) x
    (List.mem_filter.mpr ⟨hx, by simp [hxe]⟩)
  exact charsLt_asymm hlt hyx

/-- Witness for C10 (amended): with an address-less item named 협력사A and an
addressed item named 협력사B, the sorted order is not partner-name
ascending. -/
theorem C10_sort_address_first_witness :
    ¬ (sortMailItems
        [{ partner_name := "협력사A", partner_code := PyVal.str "1",
           email := PyVal.none, content := "", count := 1, df := [] },
         { partner_name := "협력사B", partner_code := PyVal.str "2",
           email := PyVal.str "b@x", content := "", count := 1, df := [] }]).Pairwise
      (fun a b => strLt a.partner_name b.partner_name = true) := by
  exact (C10_sort_address_first _).2
    { partner_name := "협력사A", partner_code := PyVal.str "1",
      email := PyVal.none, content := "", count := 1, df := [] } (by decide)
    { partner_name := "협력사B", partner_code := PyVal.str "2",
      email := PyVal.str "b@x", content := "", count := 1, df := [] } (by decide)
    (by decide) (by decide) (by decide)

/-- C10 counterexample: when the only address-less item is alphabetically
last, the re-sort leaves the list unchanged and the preview/dispatch order
is still partner-name ascending, contradicting the claim's "whenever some
item lacks an address, the order is not partner-name ascending". -/
theorem C10_counterexample :
    sortMailItems [C10itemA, C10itemB] = [C10itemA, C10itemB] ∧
    C10itemB.email.truthy = false ∧
    [C10itemA, C10itemB].Pairwise
      (fun a b => strLt a.partner_name b.partner_name = true) := by
  refine ⟨by decide, by decide, ?_⟩
  refine List.Pairwise.cons ?_ (List.Pairwise.cons (by simp) List.Pairwise.nil)
  intro b hb
  rw [List.mem_singleton] at hb
  rw [hb]
  decide

theorem count_filter_eq [DecidableEq α] (l : List α) (p : α → Bool) (a : α) :
    (l.filter p).count a = if p a = true then l.count a else 0 := by
  by_cases h : p a = true
  · rw [if_pos h]
    exact List.count_filter h
  · rw [if_neg h]
    rw [List.count_eq_zero]
    intro hmem
    exact h (List.mem_filter.mp hmem).2

theorem count_groups_sum [DecidableEq α] [DecidableEq K]
    (l : List α) (f : α → Option K) (a : α) :
    ∀ keys : List K, keys.Nodup →
      ((keys.map (fun k => l.filter (fun x => f x == some k))).map
        (fun g => g.count a)).sum
        = if ∃ k ∈ keys, f a = some k then l.count a else 0 := by
  intro keys
  induction keys with
  | nil => simp
  | cons k ks ih =>
    intro hnd
    rw [List.nodup_cons] at hnd
    rw [List.map_cons, List.map_cons, List.sum_cons, ih hnd.2, count_filter_eq]
    by_cases hk : f a = some k
    · rw [if_pos (by simp [hk])]
      rw [if_neg ?noks, if_pos ?exk]
      case noks =>
        rintro ⟨k', hk', he⟩
        rw [hk] at he
        cases he
        exact hnd.1 hk'
      case exk => exact ⟨k, List.mem_cons_self k ks, hk⟩
      omega
    · rw [if_neg (by simp [hk])]
      have hiff : (∃ k' ∈ k :: ks, f a = some k') ↔ (∃ k' ∈ ks, f a = some k') := by
        constructor
        · rintro ⟨k', hk', he⟩
          rcases List.mem_cons.mp hk' with h1 | h1
          · rw [h1] at he; exact absurd he hk
          · exact ⟨k', h1, he⟩
        · rintro ⟨k', hk', he⟩
          exact ⟨k', List.mem_cons_of_mem k hk', he⟩
      by_cases hex : ∃ k' ∈ ks, f a = some k'
      · rw [if_pos hex, if_pos (hiff.mpr hex)]
        omega
      · rw [if_neg hex, if_neg (fun h => hex (hiff.mp h))]

/-- Grouping by distinct covering keys partitions a list: the concatenation
of the per-key groups is a permutation of the elements having some key. -/
theorem flatten_groups_perm [DecidableEq α] [DecidableEq K]
    (l : List α) (keys : List K) (f : α → Option K)
    (hnd : keys.Nodup) (hcov : ∀ x ∈ l, ∀ k, f x = some k → k ∈ keys) :
    ((keys.map (fun k => l.filter (fun x => f x == some k))).flatten).Perm
      (l.filter (fun x => (f x).isSome)) := by
  rw [List.perm_iff_count]
  intro a
  rw [List.count_flatten]
  rw [show List.map (List.count a) (keys.map (fun k => l.filter (fun x => f x == some k)))
      = (keys.map (fun k => l.filter (fun x => f x == some k))).map (fun g => g.count a)
    from rfl]
  rw [count_groups_sum l f a keys hnd, count_filter_eq]
  by_cases hfa : (f a).isSome = true
  · obtain ⟨k0, hk0⟩ := Option.isSome_iff_exists.mp hfa
    rw [if_pos hfa]
    by_cases hal : a ∈ l
    · rw [if_pos ⟨k0, hcov a hal k0 hk0, hk0⟩]
    · have hz : l.count a = 0 := List.count_eq_zero.mpr hal
      rw [hz]
      split <;> rfl
  · have hn : f a = Option.none := by
      cases hv : f a
      · rfl
      · rw [hv] at hfa; exact absurd rfl hfa
    rw [if_neg hfa, if_neg]
    rintro ⟨k, _, he⟩
    rw [hn] at he
    cases he

theorem insertSorted_perm (le : α → α → Bool) (x : α) (l : List α) :
    (insertSorted le x l).Perm (x :: l) := by
  induction l with
  | nil => exact List.Perm.refl _
  | cons y ys ih =>
    simp only [insertSorted]
    split
    · exact List.Perm.refl _
    · exact (ih.cons y).trans (List.Perm.swap x y ys)

theorem stableSort_perm (le : α → α → Bool) (l : List α) :
    (stableSort le l).Perm l := by
  induction l with
  | nil => exact List.Perm.refl _
  | cons x t ih => exact (insertSorted_perm le x _).trans (ih.cons x)

theorem groupKeys_nodup (rows : List (List PyVal)) : (groupKeys rows).Nodup :=
  ((stableSort_perm _ _).nodup_iff).mpr (List.nodup_dedup _)

theorem mem_groupKeys {rows : List (List PyVal)} {r : List PyVal} {k : String}
    (hr : r ∈ rows) (hk : rowNameKey r = some k) : k ∈ groupKeys rows := by
  unfold groupKeys
  rw [(stableSort_perm _ _).mem_iff, List.mem_dedup]
  exact List.mem_filterMap.mpr ⟨r, hr, hk⟩

/-- `save_history_log` appends exactly one row per record of each item. -/
theorem save_history_log_length (items : List MailItem)
    (res : List (String × Bool × String)) (t : String) :
    (save_history_log items res t).length = ((items.map MailItem.df).flatten).length := by
  simp only [save_history_log, List.length_flatten, List.map_map]
  refine congrArg List.sum ?_
  induction items with
  | nil => rfl
  | cons it rest ih =>
    simp only [List.map_cons, ih, List.cons.injEq, and_true]
    simp [List.length_map]

/-- C3 (amended): on a successful analysis run, the records expanded into
HistoryEntries are exactly — as a permutation, hence also in number — the
undecided records (delay classification empty or missing at filter time)
whose partner-name cell is present; a record whose partner name is missing
is silently dropped by the grouping (pandas `groupby` drops missing keys)
and produces no HistoryEntry, so the claim's count over all undecided
records fails on such rows. -/
theorem C3_history_rows_match_undecided (df : DataFrame) (ml : List RosterRow)
    (t : String) (results : List (String × Bool × String)) (time : String)
    (di : Nat) (items : List MailItem) (logs : List String)
    (hdi : df.colIdx delay_col = some di)
    (h : filter_and_process df ml t = .ok (items, logs)) :
    ((items.map MailItem.df).flatten).Perm
      (((undecidedRows df di).map (projectRow df)).filter
        (fun r => (rowNameKey r).isSome)) ∧
    (save_history_log items results time).length =
      (((undecidedRows df di).map (projectRow df)).filter
        (fun r => (rowNameKey r).isSome)).length := by
  have hperm : ((items.map MailItem.df).flatten).Perm
      (((undecidedRows df di).map (projectRow df)).filter
        (fun r => (rowNameKey r).isSome)) := by
    simp only [filter_and_process, hdi] at h
    split at h
    case isTrue hmiss =>
      split at h
      case isTrue hlen =>
        simp only [Except.ok.injEq, Prod.mk.injEq] at h
        have hitems : items = [] := h.1.symm
        have hnil : (undecidedRows df di).map (projectRow df) = [] := by
          simpa using hlen
        rw [hitems, hnil]
        simp
      case isFalse hlen =>
        simp only [Except.ok.injEq, Prod.mk.injEq] at h
        have hitems := h.1.symm
        rw [hitems, List.map_map]
        exact flatten_groups_perm _ _ rowNameKey (groupKeys_nodup _)
          (fun x hx k hk => mem_groupKeys hx hk)
    case isFalse hmiss => cases h
  refine ⟨hperm, ?_⟩
  rw [save_history_log_length]
  exact hperm.length_eq

/-- Witness for C3 (amended): on a one-row table whose single record is
undecided and carries a partner name, the analysis yields one MailItem and
the dispatch run appends exactly one HistoryEntry. -/
theorem C3_history_rows_match_undecided_witness :
    (save_history_log C3Witems [] "T").length =
      (((undecidedRows C3Wdf 7).map (projectRow C3Wdf)).filter
        (fun r => (rowNameKey r).isSome)).length := by
  exact (C3_history_rows_match_undecided C3Wdf [] "" [] "T" 7 C3Witems C3Wlogs
    (by decide) (by decide)).2

/-- C3 counterexample: `C3df` has exactly one undecided record, but its
partner-name cell is missing, so the analysis yields no MailItems and the
dispatch run appends zero HistoryEntries — not one per undecided record as
the claim states. -/
theorem C3_counterexample :
    (undecidedRows C3df 7).length = 1 ∧
    filter_and_process C3df [] "" = .ok ([], C3logs) ∧
    dispatch_and_log []
      { server := "smtp.gmail.com", port := 587, username := "u",
        password := "p", from_email := "u", from_name := "발송팀" }
      (fun _ _ => .ok ()) "T" = [] := by
  exact ⟨by decide, by decide, rfl⟩

/-- C9 (amended): a run of one or two pipe-led lines (too short to qualify
as a table) is emitted as plain lines with each line's leading/trailing
whitespace stripped — hence unchanged exactly when the lines carry no
surrounding whitespace — and a following non-pipe line passes through
untouched. -/
theorem C9_short_pipe_runs_stripped (l1 l2 l3 : List Char)
    (h1 : isTableStart (stripChars l1) = true)
    (h2 : startsEndsPipe (stripChars l2) = true)
    (h3 : startsEndsPipe (stripChars l3) = false) :
    tableScan [l1] = [stripChars l1] ∧
    tableScan [l1, l2] = [stripChars l1, stripChars l2] ∧
    tableScan [l1, l2, l3] = [stripChars l1, stripChars l2, l3] := by
  have h3' : isTableStart (stripChars l3) = false := by
    simp [isTableStart, h3]
  refine ⟨?_, ?_, ?_⟩
  · simp [tableScan, collectPipe, h1]
  · simp [tableScan, collectPipe, h1, h2]
  · simp [tableScan, collectPipe, h1, h2, h3, h3']

/-- Witness for C9 (amended): a two-line pipe block followed by a plain
line is emitted as its stripped lines plus the untouched plain line. -/
theorem C9_short_pipe_runs_stripped_witness :
    tableScan ["| a | b | ".data, "| c |".data, "x".data]
      = [stripChars "| a | b | ".data, stripChars "| c |".data, "x".data] := by
  exact (C9_short_pipe_runs_stripped "| a | b | ".data "| c |".data "x".data
    (by decide) (by decide) (by decide)).2.2

/-- C9 counterexample: a single pipe-led line carrying trailing whitespace
is emitted with the whitespace stripped, not unchanged as the claim
states. -/
theorem C9_counterexample :
    tableScan ["| a | b | ".data] = ["| a | b |".data] ∧
    tableScan ["| a | b | ".data] ≠ ["| a | b | ".data] := by
  have he : tableScan ["| a | b | ".data] = ["| a | b |".data] := by
    simp [tableScan, stripChars, isTableStart, startsEndsPipe, interiorChars, lastChar,
      collectPipe, buildTable]
  refine ⟨he, ?_⟩
  rw [he]
  decide

theorem lastChar_concat : ∀ (l : List Char) (d : Char), lastChar (l ++ [d]) = some d := by
  intro l
  induction l with
  | nil => intro d; rfl
  | cons c t ih =>
    intro d
    cases t with
    | nil => rfl
    | cons e t' =>
      show lastChar (e :: t' ++ [d]) = some d
      exact ih d

theorem stripChars_of_ends (c d : Char) (mid : List Char)
    (hc : c.isWhitespace = false) (hd : d.isWhitespace = false) :
    stripChars (c :: (mid ++ [d])) = c :: (mid ++ [d]) := by
  unfold stripChars
  rw [List.dropWhile_cons, hc]
  simp only [Bool.false_eq_true, if_false]
  rw [show c :: (mid ++ [d]) = (c :: mid) ++ [d] from rfl, List.reverse_append]
  simp only [List.reverse_cons, List.reverse_nil, List.nil_append, List.singleton_append]
  rw [List.dropWhile_cons, hd]
  simp only [Bool.false_eq_true, if_false]
  simp

theorem stripChars_mkPipeLine (cells : List (List Char)) :
    stripChars (mkPipeLine cells) = mkPipeLine cells :=
  stripChars_of_ends '|' '|' (joinSep '|' cells) rfl rfl

theorem startsEndsPipe_mkPipeLine (cells : List (List Char)) :
    startsEndsPipe (mkPipeLine cells) = true := by
  unfold startsEndsPipe mkPipeLine
  rw [show ('|' :: (joinSep '|' cells ++ ['|'])) = ('|' :: joinSep '|' cells) ++ ['|']
    from rfl]
  rw [lastChar_concat]
  rfl

theorem interiorChars_mkPipeLine (cells : List (List Char)) :
    interiorChars (mkPipeLine cells) = joinSep '|' cells := by
  unfold interiorChars mkPipeLine
  simp only [List.drop_succ_cons, List.drop_zero]
  exact List.dropLast_concat

theorem splitOnChar_ne_nil (sep : Char) : ∀ s, splitOnChar sep s ≠ [] := by
  intro s
  induction s with
  | nil => simp [splitOnChar]
  | cons c rest ih =>
    simp only [splitOnChar]
    split
    · simp
    · cases hr : splitOnChar sep rest with
      | nil => exact absurd hr ih
      | cons h t => simp [hr]

theorem splitOnChar_append_no_sep (sep : Char) :
    ∀ (x rest h : List Char) (t : List (List Char)), sep ∉ x →
      splitOnChar sep rest = h :: t →
      splitOnChar sep (x ++ rest) = (x ++ h) :: t := by
  intro x
  induction x with
  | nil => intro rest h t _ hr; simpa using hr
  | cons c x' ih =>
    intro rest h t hx hr
    have hc : ¬ c = sep := fun he => hx (he ▸ List.mem_cons_self c x')
    have hx' : sep ∉ x' := fun hm => hx (List.mem_cons_of_mem c hm)
    show splitOnChar sep (c :: (x' ++ rest)) = (c :: (x' ++ h)) :: t
    simp only [splitOnChar]
    rw [if_neg (by simpa using hc)]
    rw [ih rest h t hx' hr]

theorem splitOnChar_joinSep (sep : Char) :
    ∀ (cells : List (List Char)), cells ≠ [] →
      (∀ c ∈ cells, sep ∉ c) →
      splitOnChar sep (joinSep sep cells) = cells := by
  intro cells
  induction cells with
  | nil => intro h; exact absurd rfl h
  | cons x rest ih =>
    intro _ hok
    cases rest with
    | nil =>
      show splitOnChar sep (joinSep sep [x]) = [x]
      have : joinSep sep [x] = x ++ [] := by simp [joinSep]
      rw [this, splitOnChar_append_no_sep sep x [] [] []
        (hok x (List.mem_cons_self x [])) rfl]
      simp
    | cons y rest' =>
      show splitOnChar sep (x ++ sep :: joinSep sep (y :: rest')) = x :: y :: rest'
      have hrec : splitOnChar sep (joinSep sep (y :: rest')) = y :: rest' :=
        ih (by simp) (fun c hc => hok c (List.mem_cons_of_mem x hc))
      have hsep : splitOnChar sep (sep :: joinSep sep (y :: rest'))
          = [] :: y :: rest' := by
        simp only [splitOnChar, if_pos rfl, hrec]
        simp
      rw [splitOnChar_append_no_sep sep x _ [] (y :: rest')
        (hok x (List.mem_cons_self x _)) hsep]
      simp

theorem map_stripChars_id (cells : List (List Char))
    (h : ∀ c ∈ cells, stripChars c = c) : cells.map stripChars = cells := by
  induction cells with
  | nil => rfl
  | cons c rest ih =>
    rw [List.map_cons, h c (List.mem_cons_self c rest),
      ih (fun c' hc' => h c' (List.mem_cons_of_mem c hc'))]

theorem parseCells_mkPipeLine (cells : List (List Char)) (hne : cells ≠ [])
    (hok : ∀ c ∈ cells, cellOk c) : parseCells (mkPipeLine cells) = cells := by
  unfold parseCells
  rw [interiorChars_mkPipeLine]
  rw [splitOnChar_joinSep '|' cells hne (fun c hc => (hok c hc).1)]
  exact map_stripChars_id cells (fun c hc => (hok c hc).2.2)

theorem isTableStart_mkPipeLine (c1 c2 : List Char) (rest : List (List Char)) :
    isTableStart (mkPipeLine (c1 :: c2 :: rest)) = true := by
  unfold isTableStart
  rw [startsEndsPipe_mkPipeLine, interiorChars_mkPipeLine]
  show (true && (joinSep '|' (c1 :: c2 :: rest)).contains '|') = true
  rw [Bool.true_and]
  have hmem : '|' ∈ joinSep '|' (c1 :: c2 :: rest) := by
    show '|' ∈ c1 ++ '|' :: joinSep '|' (c2 :: rest)
    exact List.mem_append_right c1 (List.mem_cons_self '|' _)
  simpa [List.contains] using hmem

/-- C7: on a well-formed five-column pipe table — a header line with five
cells, a separator line, and three data rows of five cells each, with
well-behaved cell texts and each data row having at least one non-empty
cell — step 1 of the markup converter produces exactly one HTML table
whose header cells are the five header texts and whose data rows are the
three data rows (so five `<th>` elements and three `<tr>` data rows), the
separator line being discarded; rows whose cells are all empty are dropped
by the `if any(cells)` test, and an empty remaining cell (e.g. an empty
tracking number) is rendered as a dash. -/
theorem C7_well_formed_table_html (h1 h2 h3 h4 h5 : List Char) (sepLine : List Char)
    (r1 r2 r3 : List (List Char))
    (hh : ∀ c ∈ [h1, h2, h3, h4, h5], cellOk c)
    (hsep : startsEndsPipe (stripChars sepLine) = true)
    (hr1 : ∀ c ∈ r1, cellOk c) (hr2 : ∀ c ∈ r2, cellOk c) (hr3 : ∀ c ∈ r3, cellOk c)
    (hl1 : r1.length = 5) (hl2 : r2.length = 5) (hl3 : r3.length = 5)
    (hne1 : ∃ c ∈ r1, c ≠ []) (hne2 : ∃ c ∈ r2, c ≠ []) (hne3 : ∃ c ∈ r3, c ≠ []) :
    tableScan [mkPipeLine [h1, h2, h3, h4, h5], sepLine,
        mkPipeLine r1, mkPipeLine r2, mkPipeLine r3]
      = [tableHtml [h1, h2, h3, h4, h5] [r1, r2, r3]] ∧
    tdCell [] = "<td style=\"border: 1px solid #dee2e6; padding: 10px;\">-</td>".data := by
  refine ⟨?_, rfl⟩
  have hr1ne : r1 ≠ [] := by intro hr; rw [hr] at hl1; cases hl1
  have hr2ne : r2 ≠ [] := by intro hr; rw [hr] at hl2; cases hl2
  have hr3ne : r3 ≠ [] := by intro hr; rw [hr] at hl3; cases hl3
  have hparseh : parseCells (mkPipeLine [h1, h2, h3, h4, h5]) = [h1, h2, h3, h4, h5] :=
    parseCells_mkPipeLine _ (by simp) hh
  have hparse1 : parseCells (mkPipeLine r1) = r1 := parseCells_mkPipeLine _ hr1ne hr1
  have hparse2 : parseCells (mkPipeLine r2) = r2 := parseCells_mkPipeLine _ hr2ne hr2
  have hparse3 : parseCells (mkPipeLine r3) = r3 := parseCells_mkPipeLine _ hr3ne hr3
  have hts : isTableStart (stripChars (mkPipeLine [h1, h2, h3, h4, h5])) = true := by
    rw [stripChars_mkPipeLine]
    exact isTableStart_mkPipeLine h1 h2 [h3, h4, h5]
  have hany1 : r1.any (fun c => !c.isEmpty) = true := by
    obtain ⟨c, hc, hcne⟩ := hne1
    exact List.any_eq_true.mpr ⟨c, hc, by simpa [List.isEmpty_iff] using hcne⟩
  have hany2 : r2.any (fun c => !c.isEmpty) = true := by
    obtain ⟨c, hc, hcne⟩ := hne2
    exact List.any_eq_true.mpr ⟨c, hc, by simpa [List.isEmpty_iff] using hcne⟩
  have hany3 : r3.any (fun c => !c.isEmpty) = true := by
    obtain ⟨c, hc, hcne⟩ := hne3
    exact List.any_eq_true.mpr ⟨c, hc, by simpa [List.isEmpty_iff] using hcne⟩
  have hcol : collectPipe [sepLine, mkPipeLine r1, mkPipeLine r2, mkPipeLine r3]
      = ([stripChars sepLine, mkPipeLine r1, mkPipeLine r2, mkPipeLine r3], []) := by
    simp [collectPipe, hsep, stripChars_mkPipeLine, startsEndsPipe_mkPipeLine]
  have hbuild : buildTable [mkPipeLine [h1, h2, h3, h4, h5], stripChars sepLine,
      mkPipeLine r1, mkPipeLine r2, mkPipeLine r3]
      = tableHtml [h1, h2, h3, h4, h5] [r1, r2, r3] := by
    simp only [buildTable, List.filterMap_cons, hparseh, hparse1, hparse2, hparse3,
      hany1, hany2, hany3, if_true, List.filterMap_nil]
  rw [tableScan, stripChars_mkPipeLine, isTableStart_mkPipeLine h1 h2 [h3, h4, h5]]
  simp only [if_true, hcol]
  rw [if_pos (by simp)]
  rw [hbuild]
  simp [tableScan]

theorem subEmph_nil (d0 : Char) (dr ot ct : List Char) : subEmph d0 dr ot ct [] = [] := by
  rw [subEmph.eq_def]

theorem closeFrom_cons (d : List Char) (c : Char) (rest : List Char) :
    closeFrom d (c :: rest) =
      if startsWith d (c :: rest) = true then some ([], (c :: rest).drop d.length)
      else if c = '\n' then Option.none
      else (closeFrom d rest).map (fun p => (c :: p.1, p.2)) := rfl

theorem subEmph_cons_no_open (d0 : Char) (dr ot ct : List Char) (c : Char) (rest : List Char)
    (hc : startsWith (d0 :: dr) (c :: rest) = false) :
    subEmph d0 dr ot ct (c :: rest) = c :: subEmph d0 dr ot ct rest := by
  conv_lhs => rw [subEmph.eq_def]
  simp only [hc, Bool.false_eq_true, if_false]

theorem subEmph_open (d0 : Char) (dr ot ct : List Char) (ch : Char) (rest : List Char)
    (hopen : startsWith (d0 :: dr) (ch :: rest) = true)
    (c0 : Char) (t : List Char)
    (hdrop : (ch :: rest).drop (d0 :: dr).length = c0 :: t)
    (hc0 : ¬ c0 = '\n')
    (cont after : List Char)
    (hclose : closeFrom (d0 :: dr) t = some (cont, after)) :
    subEmph d0 dr ot ct (ch :: rest)
      = ot ++ c0 :: cont ++ ct ++ subEmph d0 dr ot ct after := by
  conv_lhs => rw [subEmph.eq_def]
  simp only [hopen, if_true]
  split
  next c0' t' hdrop' =>
    rw [hdrop'] at hdrop
    injection hdrop with h1 h2
    subst h1
    subst h2
    rw [if_neg hc0]
    split
    next p hclose' =>
      rw [hclose'] at hclose
      injection hclose with h3
      rw [h3]
    next hclose' =>
      rw [hclose'] at hclose
      cases hclose
  next hdrop' =>
    rw [hdrop'] at hdrop
    cases hdrop

theorem startsWith_self_append : ∀ (p s : List Char), startsWith p (p ++ s) = true := by
  intro p
  induction p with
  | nil => intro s; rfl
  | cons c p' ih => intro s; simp [startsWith, ih]

theorem closeFrom_clean (d0 : Char) (dr : List Char) :
    ∀ (u v : List Char), (∀ c ∈ u, c ≠ d0 ∧ c ≠ '\n') →
      closeFrom (d0 :: dr) (u ++ ((d0 :: dr) ++ v)) = some (u, v) := by
  intro u
  induction u with
  | nil =>
    intro v _
    rw [List.nil_append]
    have h1 : startsWith (d0 :: dr) (d0 :: (dr ++ v)) = true :=
      startsWith_self_append (d0 :: dr) v
    rw [show ((d0 :: dr) ++ v) = d0 :: (dr ++ v) from rfl, closeFrom_cons, if_pos h1]
    simp [List.drop_succ_cons, List.drop_left]
  | cons c u' ih =>
    intro v hu
    have hc := hu c (List.mem_cons_self c u')
    rw [List.cons_append, closeFrom_cons]
    rw [if_neg ?hns, if_neg hc.2, ih v (fun x hx => hu x (List.mem_cons_of_mem c hx))]
    case hns =>
      have hne : (d0 == c) = false := by
        simp only [beq_eq_false_iff_ne, ne_eq]
        exact fun he => hc.1 he.symm
      simp [startsWith, hne]
    rfl

theorem subEmph_append_no_open (d0 : Char) (dr ot ct : List Char) :
    ∀ (x y : List Char), (∀ c ∈ x, c ≠ d0) →
      subEmph d0 dr ot ct (x ++ y) = x ++ subEmph d0 dr ot ct y := by
  intro x
  induction x with
  | nil => intro y _; rfl
  | cons c x' ih =>
    intro y hx
    rw [List.cons_append]
    rw [subEmph_cons_no_open _ _ _ _ _ _ ?hno]
    case hno =>
      have hne : (d0 == c) = false := by
        simp only [beq_eq_false_iff_ne, ne_eq]
        exact fun he => (hx c (List.mem_cons_self c x')) he.symm
      simp [startsWith, hne]
    rw [ih y (fun c' h' => hx c' (List.mem_cons_of_mem c h'))]
    rfl

/-- The adjacent bold-italic pattern `**a** *b*` through the bold pass and
then the italic pass: one strong element around `a`, one separate italic
element around `b`. -/
theorem bold_then_italic_adjacent (a b : List Char)
    (hane : a ≠ []) (hbne : b ≠ [])
    (ha : ∀ c ∈ a, c ≠ '*' ∧ c ≠ '\n')
    (hb : ∀ c ∈ b, c ≠ '*' ∧ c ≠ '\n') :
    sub_italic (sub_bold ("**".data ++ a ++ "** *".data ++ b ++ "*".data))
      = "<strong>".data ++ a ++ "</strong> <em>".data ++ b ++ "</em>".data := by
  obtain ⟨a0, a', rfl⟩ : ∃ a0 a', a = a0 :: a' := by
    cases a with
    | nil => exact absurd rfl hane
    | cons a0 a' => exact ⟨a0, a', rfl⟩
  obtain ⟨b0, b', rfl⟩ : ∃ b0 b', b = b0 :: b' := by
    cases b with
    | nil => exact absurd rfl hbne
    | cons b0 b' => exact ⟨b0, b', rfl⟩
  have hb0 := hb b0 (List.mem_cons_self b0 b')
  have ha0 := ha a0 (List.mem_cons_self a0 a')
  have hstar_b0 : ('*' == b0) = false := by
    simp only [beq_eq_false_iff_ne, ne_eq]
    exact fun he => hb0.1 he.symm
  unfold sub_bold sub_italic
  rw [show ("**".data : List Char) = ['*', '*'] from rfl,
    show ("** *".data : List Char) = ['*', '*', ' ', '*'] from rfl,
    show ("*".data : List Char) = ['*'] from rfl,
    show ("</strong> <em>".data : List Char)
      = "</strong>".data ++ (' ' :: "<em>".data) from rfl]
  simp only [List.cons_append, List.nil_append, List.append_assoc]
  rw [subEmph_open '*' ['*'] "<strong>".data "</strong>".data '*'
    ('*' :: a0 :: (a' ++ ('*' :: '*' :: ' ' :: '*' :: b0 :: (b' ++ ['*'])))) rfl
    a0 (a' ++ ('*' :: '*' :: ' ' :: '*' :: b0 :: (b' ++ ['*']))) rfl ha0.2
    a' (' ' :: '*' :: b0 :: (b' ++ ['*']))
    (closeFrom_clean '*' ['*'] a' (' ' :: '*' :: b0 :: (b' ++ ['*']))
      (fun c hc => ha c (List.mem_cons_of_mem a0 hc)))]
  rw [subEmph_cons_no_open '*' ['*'] "<strong>".data "</strong>".data ' '
    ('*' :: b0 :: (b' ++ ['*'])) rfl]
  rw [subEmph_cons_no_open '*' ['*'] "<strong>".data "</strong>".data '*'
    (b0 :: (b' ++ ['*'])) (by simp [startsWith, hstar_b0])]
  rw [subEmph_cons_no_open '*' ['*'] "<strong>".data "</strong>".data b0
    (b' ++ ['*']) (by simp [startsWith, hstar_b0])]
  rw [subEmph_append_no_open '*' ['*'] "<strong>".data "</strong>".data b' ['*']
    (fun c hc => (hb c (List.mem_cons_of_mem b0 hc)).1)]
  rw [subEmph_cons_no_open '*' ['*'] "<strong>".data "</strong>".data '*' [] rfl]
  rw [subEmph_nil]
  rw [show ("<strong>".data ++ a0 :: a' ++ "</strong>".data
      ++ (' ' :: '*' :: b0 :: (b' ++ '*' :: [])))
    = ("<strong>".data ++ a0 :: a' ++ "</strong>".data)
      ++ (' ' :: '*' :: b0 :: (b' ++ '*' :: [])) from rfl]
  rw [subEmph_append_no_open '*' [] "<em>".data "</em>".data
    ("<strong>".data ++ a0 :: a' ++ "</strong>".data)
    (' ' :: '*' :: b0 :: (b' ++ '*' :: [])) ?hxnostar]
  case hxnostar =>
    have hlit1 : ∀ x ∈ "<strong>".data, x ≠ '*' := by decide
    have hlit2 : ∀ x ∈ "</strong>".data, x ≠ '*' := by decide
    intro c hc
    rcases List.mem_append.mp hc with hc1 | hc2
    · rcases List.mem_append.mp hc1 with hc3 | hc4
      · exact hlit1 c hc3
      · rcases List.mem_cons.mp hc4 with hc5 | hc6
        · rw [hc5]; exact ha0.1
        · exact (ha c (List.mem_cons_of_mem a0 hc6)).1
    · exact hlit2 c hc2
  rw [subEmph_cons_no_open '*' [] "<em>".data "</em>".data ' '
    ('*' :: b0 :: (b' ++ '*' :: [])) rfl]
  rw [subEmph_open '*' [] "<em>".data "</em>".data '*'
    (b0 :: (b' ++ '*' :: [])) rfl b0 (b' ++ '*' :: []) rfl hb0.2 b' []
    (closeFrom_clean '*' [] b' [] (fun c hc => hb c (List.mem_cons_of_mem b0 hc)))]
  rw [subEmph_nil]
  simp [List.append_assoc, List.cons_append, List.append_nil]

/-- C8: the converter substitutes strong emphasis before italic emphasis,
so an adjacent pair `**a** *b*` (asterisk- and newline-free nonempty spans)
yields one strong element around `a` and one separate italic element
around `b` — the double-asterisk span is never consumed as two italic
markers; on the concrete message `**a** *b*` the full converter emits the
two distinct emphasis elements inside the root container. -/
theorem C8_strong_before_italic (a b : List Char)
    (hane : a ≠ []) (hbne : b ≠ [])
    (ha : ∀ c ∈ a, c ≠ '*' ∧ c ≠ '\n')
    (hb : ∀ c ∈ b, c ≠ '*' ∧ c ≠ '\n') :
    sub_italic (sub_bold ("**".data ++ a ++ "** *".data ++ b ++ "*".data))
      = "<strong>".data ++ a ++ "</strong> <em>".data ++ b ++ "</em>".data ∧
    markdown_to_html "**a** *b*"
      = "<div style=\"font-family: sans-serif; line-height: 1.6; color: #333;\"><strong>a</strong> <em>b</em></div>" := by
  refine ⟨bold_then_italic_adjacent a b hane hbne ha hb, ?_⟩
  have h1 : tableScan ["**a** *b*".data] = ["**a** *b*".data] := by
    simp [tableScan, stripChars, isTableStart, startsEndsPipe, interiorChars, lastChar]
  have h2 : sub_italic (sub_bold "**a** *b*".data)
      = "<strong>a</strong> <em>b</em>".data := by
    exact bold_then_italic_adjacent ['a'] ['b'] (by simp) (by simp)
      (by decide) (by decide)
  simp only [markdown_to_html]
  rw [show splitOnChar '\n' "**a** *b*".data = ["**a** *b*".data] from rfl]
  rw [h1]
  rw [show joinSep '\n' ["**a** *b*".data] = "**a** *b*".data from rfl]
  rw [show headersPass "**a** *b*".data = "**a** *b*".data from rfl]
  rw [h2]
  rfl

/-- Witness for C8 at the concrete spans `ab` and `cd`. -/
theorem C8_strong_before_italic_witness :
    sub_italic (sub_bold ("**".data ++ "ab".data ++ "** *".data ++ "cd".data ++ "*".data))
      = "<strong>".data ++ "ab".data ++ "</strong> <em>".data ++ "cd".data ++ "</em>".data ∧
    markdown_to_html "**a** *b*"
      = "<div style=\"font-family: sans-serif; line-height: 1.6; color: #333;\"><strong>a</strong> <em>b</em></div>" := by
  exact C8_strong_before_italic "ab".data "cd".data (by decide) (by decide)
    (by decide) (by decide)

/-- Witness for C7: a concrete five-column table with three data rows, the
third having an empty final (tracking-number) cell. -/
theorem C7_well_formed_table_html_witness :
    tableScan [mkPipeLine ["A".data, "B".data, "C".data, "D".data, "E".data],
        "|:---|:---|:---|:---|:---|".data,
        mkPipeLine ["i1".data, "n1".data, "v1".data, "o1".data, "t1".data],
        mkPipeLine ["i2".data, "n2".data, "v2".data, "o2".data, "t2".data],
        mkPipeLine ["i3".data, "n3".data, "v3".data, "o3".data, []]]
      = [tableHtml ["A".data, "B".data, "C".data, "D".data, "E".data]
          [["i1".data, "n1".data, "v1".data, "o1".data, "t1".data],
           ["i2".data, "n2".data, "v2".data, "o2".data, "t2".data],
           ["i3".data, "n3".data, "v3".data, "o3".data, []]]] ∧
    tdCell [] = "<td style=\"border: 1px solid #dee2e6; padding: 10px;\">-</td>".data := by
  exact C7_well_formed_table_html "A".data "B".data "C".data "D".data "E".data
    "|:---|:---|:---|:---|:---|".data
    ["i1".data, "n1".data, "v1".data, "o1".data, "t1".data]
    ["i2".data, "n2".data, "v2".data, "o2".data, "t2".data]
    ["i3".data, "n3".data, "v3".data, "o3".data, []]
    (by decide) (by decide) (by decide) (by decide) (by decide)
    (by decide) (by decide) (by decide) (by decide) (by decide) (by decide)
